import Mathlib

/-!
Shallow embedding of the request-orchestration layer of the archi-studio
application (`services/geminiService.ts`), the canvas undo/redo engine
(`components/CanvasEditor.tsx`) and the batch-generation App handlers,
together with theorems settling the specification claims.
-/

set_option maxHeartbeats 1000000

/-! ## JavaScript error values

`isRetryableError` receives an arbitrary thrown value (`unknown`).  We model
the universe of thrown values by the parts the classifier inspects: a thrown
value is either a non-object primitive (a string, or any other primitive,
none of which pass the `typeof error === 'object'` test), or an object with
optional `status`, `code`, `error` and `message` fields.  Field values that
can be a JS number or string are modelled by `JPrim`.  The `error` field is
inspected only when it holds an object, so a non-object `error` field is
folded into `none`. -/

inductive JPrim where
  | num (n : Int)
  | str (s : String)
deriving DecidableEq, Repr

/-- The nested object possibly stored in an error's `error` field. -/
structure InnerObj where
  code : Option JPrim := none
  status : Option JPrim := none
  message : Option String := none
deriving DecidableEq, Repr

/-- An object-typed thrown error value, restricted to the fields inspected
by `isRetryableError`. -/
structure ErrObj where
  status : Option JPrim := none
  code : Option JPrim := none
  inner : Option InnerObj := none
  message : Option String := none
deriving DecidableEq, Repr

/-- A thrown JavaScript value: a string primitive, some other non-object
primitive (number, boolean, and so on), or an object. -/
inductive Thrown where
  | primStr (s : String)
  | primOther
  | obj (e : ErrObj)
deriving DecidableEq, Repr

/-- Whether `typeof error === 'object'` holds (and the value is truthy). -/
def Thrown.isObj : Thrown → Bool
  | .obj _ => true
  | _ => false

/-- JavaScript `String.prototype.includes`: substring containment. -/
def strIncludes (s pat : String) : Bool :=
  decide (List.IsInfix pat.toList s.toList)

/-- The string `String(error)` produces for a plain object, and the fallback
for `(e['message'] as string) || String(error)` when the `message` field is
absent or empty. -/
def effectiveMsg (e : ErrObj) : String :=
  match e.message with
  | some m => if m = "" then "[object Object]" else m
  | none => "[object Object]"

/-- The message-substring phrases checked against a nested error message. -/
def innerMsgRetryable (m : String) : Bool :=
  strIncludes m "Deadline expired" || strIncludes m "503" ||
  strIncludes m "UNAVAILABLE" || strIncludes m "Overloaded" ||
  strIncludes m "RESOURCE_EXHAUSTED"

/-- The message-substring phrases checked against the top-level message. -/
def topMsgRetryable (m : String) : Bool :=
  strIncludes m "Deadline expired" || strIncludes m "503" ||
  strIncludes m "UNAVAILABLE" || strIncludes m "Overloaded" ||
  strIncludes m "upstream connect error" || strIncludes m "RESOURCE_EXHAUSTED" ||
  strIncludes m "429"

/-- Embedding of `isRetryableError` (geminiService.ts lines 86-120):
non-objects are never retryable; objects are retryable when the top-level
`status`/`code`, the nested `error` object's `code`/`status`/`message`, or
the top-level message matches a transient 429/503-class signal. -/
def isRetryableError : Thrown → Bool
  | .primStr _ => false
  | .primOther => false
  | .obj e =>
    (e.status == some (.num 503) || e.code == some (.num 503) ||
       e.status == some (.str "UNAVAILABLE")) ||
    (e.status == some (.num 429) || e.code == some (.num 429) ||
       e.status == some (.str "RESOURCE_EXHAUSTED")) ||
    (match e.inner with
     | some ie =>
       (ie.code == some (.num 503) || ie.status == some (.str "UNAVAILABLE")) ||
       (ie.code == some (.num 429) || ie.status == some (.str "RESOURCE_EXHAUSTED")) ||
       (match ie.message with
        | some im => innerMsgRetryable im
        | none => false)
     | none => false) ||
    (let msg := effectiveMsg e
     !(msg == "") && topMsgRetryable msg)

/-! ## Retry loop

`retryOperation` is modelled over the sequence of outcomes of the wrapped
operation: `op i` is what the `(i+1)`-th invocation settles to.  The model
returns the settled result together with the number of invocations made.
The backoff delay and jitter only affect timing, not the result. -/

/-- Embedding of the attempt loop of `retryOperation` (geminiService.ts
lines 125-151), starting at attempt number `attempt`.  Returns the overall
outcome and the total number of invocations counted from attempt 0. -/
def retryAux {α : Type} (op : Nat → Except Thrown α) (retries : Nat)
    (attempt : Nat) : Except Thrown α × Nat :=
  match op attempt with
  | .ok v => (.ok v, attempt + 1)
  | .error e =>
    if h : attempt < retries ∧ isRetryableError e = true then
      retryAux op retries (attempt + 1)
    else
      (.error e, attempt + 1)
termination_by retries - attempt
decreasing_by omega

/-- Embedding of `retryOperation`: run the attempt loop from attempt 0. -/
def retryOperation {α : Type} (op : Nat → Except Thrown α) (retries : Nat) :
    Except Thrown α × Nat :=
  retryAux op retries 0

theorem retryAux_ok {α : Type} (op : Nat → Except Thrown α) (retries attempt : Nat)
    (v : α) (h : op attempt = .ok v) :
    retryAux op retries attempt = (.ok v, attempt + 1) := by
  rw [retryAux, h]

theorem retryAux_retry {α : Type} (op : Nat → Except Thrown α) (retries attempt : Nat)
    (e : Thrown) (h : op attempt = .error e) (hr : isRetryableError e = true)
    (hlt : attempt < retries) :
    retryAux op retries attempt = retryAux op retries (attempt + 1) := by
  rw [retryAux, h]
  simp [hlt, hr]

theorem retryAux_stop {α : Type} (op : Nat → Except Thrown α) (retries attempt : Nat)
    (e : Thrown) (h : op attempt = .error e)
    (hnr : ¬(attempt < retries ∧ isRetryableError e = true)) :
    retryAux op retries attempt = (.error e, attempt + 1) := by
  rw [retryAux, h]
  simp only [dif_neg hnr]

/-- The attempt loop never makes more than `retries + 1` invocations. -/
theorem retryAux_count_le {α : Type} (op : Nat → Except Thrown α) (retries : Nat) :
    ∀ k attempt, retries - attempt = k → attempt ≤ retries →
      (retryAux op retries attempt).2 ≤ retries + 1 := by
  intro k
  induction k with
  | zero =>
    intro attempt hk hle
    rw [retryAux]
    cases hop : op attempt with
    | ok v => simpa using hle
    | error e =>
      have : ¬(attempt < retries ∧ isRetryableError e = true) := by omega
      simp only [dif_neg this]
      simpa using hle
  | succ n ih =>
    intro attempt hk hle
    rw [retryAux]
    cases hop : op attempt with
    | ok v => simpa using hle
    | error e =>
      by_cases hc : attempt < retries ∧ isRetryableError e = true
      · simp only [dif_pos hc]
        exact ih (attempt + 1) (by omega) (by omega)
      · simp only [dif_neg hc]
        simpa using hle

/-! ## Claims C1, C2, C9, C3 — retry loop and error classification -/

/-- C1: an operation that fails with a retryable error on its first three
invocations and succeeds on the fourth, run through `retryOperation` with
`maxRetries = 5`, returns the success value having invoked the operation
exactly 4 times; and in general the loop with `maxRetries = 5` never makes
more than 6 invocations (1 initial + 5 retries). -/
theorem retryOperation_three_retryable_then_success {α : Type}
    (op : Nat → Except Thrown α) (v : α)
    (h3 : ∀ i, i < 3 → ∃ e, op i = .error e ∧ isRetryableError e = true)
    (h4 : op 3 = .ok v) :
    retryOperation op 5 = (.ok v, 4) ∧
      ∀ (β : Type) (op2 : Nat → Except Thrown β), (retryOperation op2 5).2 ≤ 6 := by
  constructor
  · obtain ⟨e0, he0, hr0⟩ := h3 0 (by omega)
    obtain ⟨e1, he1, hr1⟩ := h3 1 (by omega)
    obtain ⟨e2, he2, hr2⟩ := h3 2 (by omega)
    unfold retryOperation
    rw [retryAux_retry op 5 0 e0 he0 hr0 (by omega),
        retryAux_retry op 5 1 e1 he1 hr1 (by omega),
        retryAux_retry op 5 2 e2 he2 hr2 (by omega),
        retryAux_ok op 5 3 v h4]
  · intro β op2
    exact retryAux_count_le op2 5 5 0 rfl (by omega)

theorem retryOperation_three_retryable_then_success_witness :
    retryOperation
        (fun i => if i < 3 then Except.error (Thrown.obj { status := some (JPrim.num 503) })
          else Except.ok (0 : Nat)) 5 = (Except.ok 0, 4) ∧
      (retryOperation (fun _ => (Except.error Thrown.primOther : Except Thrown Nat)) 5).2 ≤ 6 := by
  have h := retryOperation_three_retryable_then_success
    (fun i => if i < 3 then Except.error (Thrown.obj { status := some (JPrim.num 503) })
      else Except.ok (0 : Nat)) 0
    (fun i hi => ⟨Thrown.obj { status := some (JPrim.num 503) }, by simp [hi], by decide⟩)
    (by simp)
  exact ⟨h.1, h.2 Nat _⟩

/-- C2: an operation whose first invocation fails with a terminal
(non-retryable) error is invoked exactly once by `retryOperation`, which
rethrows that same error value unchanged, for every `maxRetries`. -/
theorem retryOperation_terminal_single {α : Type}
    (op : Nat → Except Thrown α) (e : Thrown)
    (h0 : op 0 = .error e) (hterm : isRetryableError e = false) :
    ∀ retries, retryOperation op retries = (.error e, 1) := by
  intro retries
  unfold retryOperation
  refine retryAux_stop op retries 0 e h0 ?_
  rintro ⟨-, hc⟩
  rw [hterm] at hc
  exact Bool.noConfusion hc

theorem retryOperation_terminal_single_witness :
    retryOperation
        (fun _ => (Except.error (Thrown.obj { message := some "invalid argument" }) :
          Except Thrown Nat)) 5
      = (Except.error (Thrown.obj { message := some "invalid argument" }), 1) :=
  retryOperation_terminal_single _ _ rfl (by decide) 5

/-- C9: a thrown value that is not an object — such as a plain string, even
one containing "503" or "429" — is classified non-retryable, so
`retryOperation` rethrows it after a single invocation. -/
theorem nonobject_thrown_not_retried {α : Type} (t : Thrown)
    (op : Nat → Except Thrown α) (hno : t.isObj = false) (h0 : op 0 = .error t) :
    isRetryableError t = false ∧
      ∀ retries, retryOperation op retries = (.error t, 1) := by
  have hterm : isRetryableError t = false := by
    cases t with
    | primStr s => rfl
    | primOther => rfl
    | obj e => simp [Thrown.isObj] at hno
  refine ⟨hterm, fun retries => ?_⟩
  unfold retryOperation
  refine retryAux_stop op retries 0 t h0 ?_
  rintro ⟨-, hc⟩
  rw [hterm] at hc
  exact Bool.noConfusion hc

theorem nonobject_thrown_not_retried_witness :
    isRetryableError (Thrown.primStr "503 UNAVAILABLE") = false ∧
      retryOperation (fun _ => (Except.error (Thrown.primStr "503 UNAVAILABLE") :
          Except Thrown Nat)) 5
        = (Except.error (Thrown.primStr "503 UNAVAILABLE"), 1) := by
  have h := nonobject_thrown_not_retried (Thrown.primStr "503 UNAVAILABLE")
    (fun _ => (Except.error (Thrown.primStr "503 UNAVAILABLE") : Except Thrown Nat)) rfl rfl
  exact ⟨h.1, h.2 5⟩

/-- C3 counterexample: a nested `error` object carrying the numeric status
503 in its `status` field is NOT classified retryable — the code reads the
numeric form only from the nested `code` field — refuting the claim that a
429/503 status in the nested `error` object's status field always yields
retryable = true. -/
theorem isRetryableError_nested_numeric_status_false :
    isRetryableError
        (Thrown.obj { inner := some { status := some (JPrim.num 503) } }) = false := by
  decide

/-- C3 amended: `isRetryableError` returns true when an object error carries
a 429/503-class signal in any of the three inspected locations, in the
forms the code actually reads: top level — numeric 429/503 in `status` or
`code`, or the string forms UNAVAILABLE/RESOURCE_EXHAUSTED in `status`;
nested `error` object — numeric 429/503 in `code`, or the string forms in
`status`; message — a substring "429" or "503".  It returns false for an
unrelated error whose message is only "invalid argument". -/
theorem isRetryableError_locations :
    (∀ e : ErrObj,
        (e.status = some (JPrim.num 429) ∨ e.status = some (JPrim.num 503) ∨
          e.code = some (JPrim.num 429) ∨ e.code = some (JPrim.num 503) ∨
          e.status = some (JPrim.str "UNAVAILABLE") ∨
          e.status = some (JPrim.str "RESOURCE_EXHAUSTED")) →
        isRetryableError (Thrown.obj e) = true) ∧
    (∀ (e : ErrObj) (ie : InnerObj), e.inner = some ie →
        (ie.code = some (JPrim.num 429) ∨ ie.code = some (JPrim.num 503) ∨
          ie.status = some (JPrim.str "UNAVAILABLE") ∨
          ie.status = some (JPrim.str "RESOURCE_EXHAUSTED")) →
        isRetryableError (Thrown.obj e) = true) ∧
    (∀ (e : ErrObj) (m : String), e.message = some m →
        (strIncludes m "429" = true ∨ strIncludes m "503" = true) →
        isRetryableError (Thrown.obj e) = true) ∧
    isRetryableError (Thrown.obj { message := some "invalid argument" }) = false := by
  refine ⟨?_, ?_, ?_, by decide⟩
  · intro e h
    rcases h with h | h | h | h | h | h <;> simp [isRetryableError, h]
  · intro e ie hinner h
    rcases h with h | h | h | h <;> simp [isRetryableError, hinner, h]
  · intro e m hmsg h
    have hne : m ≠ "" := by
      rintro rfl
      rcases h with h | h <;> exact absurd h (by decide)
    have htop : topMsgRetryable m = true := by
      rcases h with h | h <;> simp [topMsgRetryable, h]
    simp [isRetryableError, effectiveMsg, hmsg, if_neg hne, htop, hne]

theorem isRetryableError_locations_witness :
    isRetryableError (Thrown.obj { status := some (JPrim.num 429) }) = true ∧
      isRetryableError (Thrown.obj { inner := some { code := some (JPrim.num 503) } }) = true ∧
      isRetryableError (Thrown.obj { message := some "HTTP 429 rate limit" }) = true :=
  ⟨isRetryableError_locations.1 _ (Or.inl rfl),
    isRetryableError_locations.2.1 _ _ rfl (Or.inr (Or.inl rfl)),
    isRetryableError_locations.2.2.1 _ _ rfl (Or.inl (by decide))⟩

/-! ## Image resizing (`resizeImageForApi`, geminiService.ts lines 30-48)

The browser image decode is modelled by an `Option (Nat × Nat)`: `none` when
`img.onerror` fires, `some (width, height)` when `img.onload` fires.  The
availability of a 2D canvas context is a `Bool`.  `Math.round (p / q)` on
nonnegative rationals is `⌊p / q + 1 / 2⌋ = (2 p + q) / (2 q)` in integer
division.  The function resolves on every path, which the model reflects by
being a total function into `ResizeOut`. -/

/-- JavaScript `Math.round (p / q)` for natural `p`, positive natural `q`. -/
def jsRound (p q : Nat) : Nat := (2 * p + q) / (2 * q)

/-- The resolved value of the `resizeImageForApi` promise: either the input
data URL unchanged, or a re-encoded JPEG whose canvas had the given
dimensions. -/
inductive ResizeOut where
  | original (dataUrl : String)
  | reencoded (w h : Nat)
deriving DecidableEq, Repr

/-- Embedding of `resizeImageForApi`: on decode error resolve with the
input; if the longest edge is within `maxPx` resolve with the input;
otherwise scale both dimensions by `maxPx / maxDim` with `Math.round`,
unless no 2D context is available, in which case resolve with the input. -/
def resizeImageForApi (dataUrl : String) (decoded : Option (Nat × Nat))
    (ctxOk : Bool) (maxPx : Nat) : ResizeOut :=
  match decoded with
  | none => .original dataUrl
  | some (w, h) =>
    let maxDim := max w h
    if maxDim ≤ maxPx then .original dataUrl
    else if ctxOk then
      .reencoded (jsRound (w * maxPx) maxDim) (jsRound (h * maxPx) maxDim)
    else .original dataUrl

theorem jsRound_bounds (p D : Nat) (hD : 0 < D) :
    2 * D * jsRound p D ≤ 2 * p + D ∧ 2 * p ≤ 2 * D * jsRound p D + D := by
  unfold jsRound
  have h := Nat.div_add_mod (2 * p + D) (2 * D)
  have hr := Nat.mod_lt (2 * p + D) (show 0 < 2 * D by omega)
  omega

theorem jsRound_exact (m w : Nat) (hw : 0 < w) : jsRound (w * m) w = m := by
  unfold jsRound
  have h : 2 * (w * m) + w = w * (2 * m + 1) := by ring
  rw [h, Nat.mul_comm 2 w, Nat.mul_div_mul_left _ _ hw]
  omega

theorem jsRound_mono (p p' q : Nat) (h : p ≤ p') : jsRound p q ≤ jsRound p' q := by
  unfold jsRound
  exact Nat.div_le_div_right (by omega)

/-! ## Claims C5, C6 — resize dimensions and resolution -/

/-- C5: when the longest edge is within `maxPx` the input is returned with
its dimensions unchanged; otherwise the output's longest edge equals
`maxPx` and the aspect ratio is preserved within rounding error (the cross
difference `ow·h − oh·w` is at most half of `w + h`, which is exactly the
half-pixel rounding slack on each dimension). -/
theorem resizeImageForApi_dims (s : String) (w h maxPx : Nat) :
    (max w h ≤ maxPx → resizeImageForApi s (some (w, h)) true maxPx = .original s) ∧
    (maxPx < max w h →
      ∃ ow oh, resizeImageForApi s (some (w, h)) true maxPx = .reencoded ow oh ∧
        max ow oh = maxPx ∧
        |2 * ((ow : ℤ) * h - (oh : ℤ) * w)| ≤ w + h) := by
  constructor
  · intro hle
    simp [resizeImageForApi, hle]
  · intro hgt
    have hD : 0 < max w h := by omega
    refine ⟨jsRound (w * maxPx) (max w h), jsRound (h * maxPx) (max w h), ?_, ?_, ?_⟩
    · simp [resizeImageForApi, Nat.not_le.mpr hgt]
    · rcases Nat.le_total h w with hc | hc
      · rw [Nat.max_eq_left hc] at hD ⊢
        rw [jsRound_exact maxPx w hD]
        refine Nat.max_eq_left ?_
        calc jsRound (h * maxPx) w ≤ jsRound (w * maxPx) w :=
              jsRound_mono _ _ _ (Nat.mul_le_mul_right _ hc)
          _ = maxPx := jsRound_exact maxPx w hD
      · rw [Nat.max_eq_right hc] at hD ⊢
        rw [jsRound_exact maxPx h hD]
        refine Nat.max_eq_right ?_
        calc jsRound (w * maxPx) h ≤ jsRound (h * maxPx) h :=
              jsRound_mono _ _ _ (Nat.mul_le_mul_right _ hc)
          _ = maxPx := jsRound_exact maxPx h hD
    · set D := max w h with hDdef
      set ow := jsRound (w * maxPx) D with how
      set oh := jsRound (h * maxPx) D with hoh
      have bw := jsRound_bounds (w * maxPx) D hD
      have bh := jsRound_bounds (h * maxPx) D hD
      have A : 2 * (D : ℤ) * ow ≤ 2 * (w * maxPx) + D := by exact_mod_cast bw.1
      have B : 2 * ((w : ℤ) * maxPx) ≤ 2 * D * ow + D := by exact_mod_cast bw.2
      have C : 2 * (D : ℤ) * oh ≤ 2 * (h * maxPx) + D := by exact_mod_cast bh.1
      have E : 2 * ((h : ℤ) * maxPx) ≤ 2 * D * oh + D := by exact_mod_cast bh.2
      have hDZ : (0 : ℤ) < D := by exact_mod_cast hD
      have hwZ : (0 : ℤ) ≤ w := Int.ofNat_nonneg w
      have hhZ : (0 : ℤ) ≤ h := Int.ofNat_nonneg h
      rw [abs_le]
      constructor
      · have k2 : (D : ℤ) * -(2 * ((ow : ℤ) * h - (oh : ℤ) * w)) ≤ D * (w + h) := by
          nlinarith
        have := (mul_le_mul_left hDZ).mp k2
        linarith
      · have k1 : (D : ℤ) * (2 * ((ow : ℤ) * h - (oh : ℤ) * w)) ≤ D * (w + h) := by
          nlinarith
        have := (mul_le_mul_left hDZ).mp k1
        linarith

theorem resizeImageForApi_dims_witness :
    (max 1000 500 ≤ 2048 ∧
      resizeImageForApi "img" (some (1000, 500)) true 2048 = .original "img") ∧
    (2048 < max 4000 2000 ∧
      ∃ ow oh, resizeImageForApi "img" (some (4000, 2000)) true 2048 = .reencoded ow oh ∧
        max ow oh = 2048 ∧
        |2 * ((ow : ℤ) * 2000 - (oh : ℤ) * 4000)| ≤ 4000 + 2000) :=
  ⟨⟨by decide, (resizeImageForApi_dims "img" 1000 500 2048).1 (by decide)⟩,
    ⟨by decide, (resizeImageForApi_dims "img" 4000 2000 2048).2 (by decide)⟩⟩

/-- C6: the resize promise resolves on every input (the model is a total
function into `ResizeOut`); on decode error it resolves with the original
input string unchanged, and when no 2D context can be obtained it also
resolves with the original input. -/
theorem resizeImageForApi_never_fails (s : String) (maxPx : Nat) :
    (∀ ctxOk, resizeImageForApi s none ctxOk maxPx = .original s) ∧
    (∀ w h, maxPx < max w h → resizeImageForApi s (some (w, h)) false maxPx = .original s) := by
  constructor
  · intro ctxOk
    rfl
  · intro w h hgt
    simp [resizeImageForApi, Nat.not_le.mpr hgt]

theorem resizeImageForApi_never_fails_witness :
    resizeImageForApi "bad-data" none true 2048 = .original "bad-data" ∧
      (2048 < max 4000 2000 ∧
        resizeImageForApi "img" (some (4000, 2000)) false 2048 = .original "img") :=
  ⟨(resizeImageForApi_never_fails "bad-data" 2048).1 true,
    by decide, (resizeImageForApi_never_fails "img" 2048).2 4000 2000 (by decide)⟩

/-! ## Aspect-ratio selection (`getClosestAspectRatio`, App lines 21-35)

The JS code compares floating-point ratios; all ratios involved are small
exact fractions, modelled in `ℚ`.  `Math.abs` is `ratAbs`.  The JS
`Object.keys(ratios).reduce` with no initial accumulator seeds the fold
with the first key "16:9" and keeps the earlier key on ties (strict `<`). -/

/-- JavaScript `Math.abs` on rationals. -/
def ratAbs (q : ℚ) : ℚ := if q < 0 then -q else q

/-- The candidate aspect ratios, in the key order of the source object. -/
def aspectTable : List (String × ℚ) :=
  [("16:9", 16 / 9), ("4:3", 4 / 3), ("1:1", 1), ("3:4", 3 / 4), ("9:16", 9 / 16)]

/-- Embedding of `getClosestAspectRatio`: zero dimensions fall back to
"1:1"; otherwise reduce over the table keeping the entry whose ratio is
strictly closer to `width / height`. -/
def getClosestAspectRatio (w h : Nat) : String :=
  if w = 0 || h = 0 then "1:1"
  else
    let ratio : ℚ := (w : ℚ) / (h : ℚ)
    (aspectTable.foldl
      (fun best curr => if ratAbs (curr.2 - ratio) < ratAbs (best.2 - ratio) then curr else best)
      ("16:9", 16 / 9)).1

/-- C8: a 4000×2000 input (ratio 2.0) selects "16:9", and 16/9 is indeed
the member of the candidate set whose ratio is closest to 2. -/
theorem getClosestAspectRatio_4000_2000 :
    getClosestAspectRatio 4000 2000 = "16:9" ∧
      ratAbs (16 / 9 - (4000 : ℚ) / 2000) ≤ ratAbs (4 / 3 - (4000 : ℚ) / 2000) ∧
      ratAbs (16 / 9 - (4000 : ℚ) / 2000) ≤ ratAbs (1 - (4000 : ℚ) / 2000) ∧
      ratAbs (16 / 9 - (4000 : ℚ) / 2000) ≤ ratAbs (3 / 4 - (4000 : ℚ) / 2000) ∧
      ratAbs (16 / 9 - (4000 : ℚ) / 2000) ≤ ratAbs (9 / 16 - (4000 : ℚ) / 2000) := by
  refine ⟨?_, ?_, ?_, ?_, ?_⟩ <;> norm_num [getClosestAspectRatio, aspectTable, ratAbs]

/-! ## Canvas editor undo/redo (`CanvasEditor.tsx`)

The annotation layer raster (`ImageData`) is an abstract type `α`.  The JS
stacks push to the array end and evict with `shift` from the front; the
model keeps the newest snapshot at the head, so eviction of the oldest is
`dropLast`.  Committing a stroke (`startAction` on a draw tool, finished by
`stopAction`) snapshots the current layer via `saveSnapshot` before
mutating it; `clearCanvas` does the same and then wipes the layer. -/

/-- Capacity of the undo stack (`MAX_UNDO_STEPS` in CanvasEditor.tsx). -/
def MAX_UNDO_STEPS : Nat := 20

/-- The mutable editor state relevant to undo/redo. -/
structure EditorState (α : Type) where
  canvas : α
  undoStack : List α
  redoStack : List α
deriving DecidableEq

/-- Embedding of `saveSnapshot` (CanvasEditor.tsx lines 70-81): push the
current layer onto the undo stack, evict the oldest entry past capacity,
and clear the redo stack. -/
def saveSnapshot {α : Type} (st : EditorState α) : EditorState α :=
  let pushed := st.canvas :: st.undoStack
  { st with
    undoStack := if pushed.length > MAX_UNDO_STEPS then pushed.dropLast else pushed
    redoStack := [] }

/-- Committing a new stroke: snapshot, then the drawing mutates the layer
into `stroked`. -/
def commitStroke {α : Type} (st : EditorState α) (stroked : α) : EditorState α :=
  let st' := saveSnapshot st
  { st' with canvas := stroked }

/-- Embedding of `clearCanvas` (lines 282-287): snapshot, then wipe the
layer to the fully transparent raster `blank`. -/
def clearCanvas {α : Type} (st : EditorState α) (blank : α) : EditorState α :=
  let st' := saveSnapshot st
  { st' with canvas := blank }

/-- Embedding of `undo` (lines 83-96): no-op on an empty undo stack,
otherwise push the current layer to redo and restore the popped snapshot. -/
def undo {α : Type} (st : EditorState α) : EditorState α :=
  match st.undoStack with
  | [] => st
  | snapshot :: rest =>
    { canvas := snapshot, undoStack := rest, redoStack := st.canvas :: st.redoStack }

/-- Embedding of `redo` (lines 98-111): no-op on an empty redo stack,
otherwise push the current layer to undo and restore the popped snapshot. -/
def redo {α : Type} (st : EditorState α) : EditorState α :=
  match st.redoStack with
  | [] => st
  | snapshot :: rest =>
    { canvas := snapshot, undoStack := st.canvas :: st.undoStack, redoStack := rest }

/-- C7: every drawing action other than undo/redo (committing a stroke, or
clearing the canvas) leaves the redo stack empty, so a subsequent `redo` is
a no-op; in particular after one `undo` followed by a new stroke, `redo` is
a no-op. -/
theorem redoStack_empty_after_draw {α : Type} (st : EditorState α) (stroked blank : α) :
    (commitStroke st stroked).redoStack = [] ∧
    (clearCanvas st blank).redoStack = [] ∧
    redo (commitStroke st stroked) = commitStroke st stroked ∧
    redo (clearCanvas st blank) = clearCanvas st blank ∧
    redo (commitStroke (undo st) stroked) = commitStroke (undo st) stroked := by
  refine ⟨rfl, rfl, rfl, rfl, rfl⟩

/-! ## Style image generation (`generateStyleImages`, geminiService.ts 160-198)

A network response is modelled by what the extraction inspects:
`response.candidates?.[0]?.content?.parts` is an `Option (List RespPart)`
(`none` when the optional chain is undefined), and each part optionally
carries `inlineData` with optional `mimeType` and `data`.  `responses i` is
the (retry-settled) response to the `(i+1)`-th sequential request. -/

/-- The `inlineData` payload of a response part. -/
structure InlineData where
  mimeType : Option String := none
  dataStr : Option String := none
deriving DecidableEq

/-- A response content part. -/
structure RespPart where
  inlineData : Option InlineData := none
  textStr : Option String := none
deriving DecidableEq

/-- JavaScript `x || d` on an optional string: the default replaces both a
missing and an empty (falsy) string. -/
def jsOrDefault (o : Option String) (d : String) : String :=
  match o with
  | some s => if s = "" then d else s
  | none => d

/-- The data URL built from a part when `part.inlineData?.data` is truthy. -/
def partImage (p : RespPart) : Option String :=
  match p.inlineData with
  | some dta =>
    match dta.dataStr with
    | some s =>
      if s = "" then none
      else some ("data:" ++ jsOrDefault dta.mimeType "image/png" ++ ";base64," ++ s)
    | none => none
  | none => none

/-- The inner `for (const part of ...)` loop: collect every usable inline
image of a response, in order. -/
def collectInlineImages : List RespPart → List String
  | [] => []
  | p :: rest =>
    match partImage p with
    | some u => u :: collectInlineImages rest
    | none => collectInlineImages rest

/-- All images contributed by one response (none when the optional chain
`candidates?.[0]?.content?.parts` is undefined). -/
def responseImages (resp : Option (List RespPart)) : List String :=
  match resp with
  | some ps => collectInlineImages ps
  | none => []

/-- The outer `for (let i = 0; i < count; i++)` loop of
`generateStyleImages`, accumulating into `images`. -/
def styleLoop (responses : Nat → Option (List RespPart)) : Nat → Nat → List String
  | _, 0 => []
  | i, n + 1 => responseImages (responses i) ++ styleLoop responses (i + 1) n

/-- Embedding of `generateStyleImages` over the settled responses. -/
def generateStyleImages (responses : Nat → Option (List RespPart)) (count : Nat) :
    List String :=
  styleLoop responses 0 count

/-- Embedding of the response handling of `generateArchitecturalView` and
`upscaleArchitecturalImage` (lines 303-312 and 537-546): return the first
inline image, or throw "No image generated". -/
def extractImageOrThrow (resp : Option (List RespPart)) : Except String String :=
  match resp with
  | some ps =>
    match collectInlineImages ps with
    | u :: _ => .ok u
    | [] => .error "No image generated"
  | none => .error "No image generated"

theorem styleLoop_eq_join (responses : Nat → Option (List RespPart)) :
    ∀ n i, styleLoop responses i n
      = ((List.range n).map (fun k => responseImages (responses (i + k)))).flatten := by
  intro n
  induction n with
  | zero => intro i; simp [styleLoop]
  | succ m ih =>
    intro i
    rw [styleLoop, ih (i + 1), List.range_succ_eq_map]
    simp only [List.map_cons, List.flatten_cons, List.map_map, Nat.add_zero]
    congr 1
    apply congrArg
    apply List.map_congr_left
    intro k _
    simp only [Function.comp_apply]
    have h : i + 1 + k = i + (k + 1) := by omega
    rw [h]

/-- C10: `generateStyleImages` returns exactly the concatenation of all
usable inline-image parts across its `count` responses and never raises a
"no image generated" error: responses without image parts silently shrink
the list (possibly to empty), several image parts in one response grow it
past `count`; whereas the single-image extraction used by
`generateArchitecturalView` / `upscaleArchitecturalImage` throws on an
imageless response. -/
theorem generateStyleImages_concat (responses : Nat → Option (List RespPart)) (count : Nat) :
    generateStyleImages responses count
      = ((List.range count).map (fun k => responseImages (responses k))).flatten ∧
    generateStyleImages (fun _ => some [{ textStr := some "just text" }]) 3 = [] ∧
    (generateStyleImages
        (fun _ => some [{ inlineData := some { dataStr := some "AA" } },
                        { inlineData := some { dataStr := some "BB" } }]) 1).length = 2 ∧
    extractImageOrThrow (some [{ textStr := some "just text" }]) = .error "No image generated" := by
  refine ⟨?_, rfl, rfl, rfl⟩
  rw [generateStyleImages, styleLoop_eq_join responses count 0]
  simp

/-! ## Batch generation (`App.handleGenerate`, App lines 888-952)

The handler is modelled as a pure state transition over the history list
and the credit balance.  `gen i` is the settled outcome of the (retry-
wrapped) `generateArchitecturalView` call for the `(i+1)`-th base image;
a `catch` in the source maps to propagating the first `.error`.  React
state updates (`setHistory`, `setCredits`) become fields of the outcome. -/

/-- The task types of `types.ts`. -/
inductive TaskType where
  | material
  | facade
  | masterplan
  | perspective
  | technical_detail
deriving DecidableEq, Repr

/-- Like/dislike feedback on one result. -/
inductive Feedback where
  | like
  | dislike
deriving DecidableEq, Repr

/-- One result inside a history batch (`HistoryResult` in types.ts). -/
structure HistoryResultM where
  id : String
  baseImage : String
  resultImage : String
  feedback : Option Feedback := none
deriving DecidableEq, Repr

/-- One history batch (`HistoryItem` in types.ts). -/
structure HistoryItemM where
  id : String
  taskType : TaskType
  prompt : String
  timestamp : Nat
  results : List HistoryResultM
  referenceImages : List String
deriving DecidableEq, Repr

/-- Bound on the history list (`MAX_HISTORY` in the App). -/
def MAX_HISTORY : Nat := 20

/-- Modelled from the spec: `services/credits.ts` (imported by the App for
`getCreditCost` and `deductCredits`) is not among the provided sources.
The spec states the credit store debits "a fixed per-operation cost
(distinct costs for generation, upscale, analysis, and style-image
batches, scaled by item count)"; the fixed per-operation cost is kept as a
parameter and scaled by the item count. -/
def getCreditCost (perOpCost : Nat) (count : Nat) : Nat := perOpCost * count

/-- The observable outcome of one `handleGenerate` run. -/
structure GenOutcome where
  history : List HistoryItemM
  credits : Int
  thrown : Option Thrown
  blocked : Bool
  genCalls : Nat
deriving DecidableEq

/-- The sequential `for` loop over the base images: builds the `results`
array until the first failing generation call, counting invocations. -/
def runBatch (gen : Nat → Except Thrown String) (batchId : String) :
    List String → Nat → Except Thrown (List HistoryResultM) × Nat
  | [], _ => (.ok [], 0)
  | baseImg :: rest, i =>
    match gen i with
    | .error e => (.error e, 1)
    | .ok resultImg =>
      match runBatch gen batchId rest (i + 1) with
      | (.ok l, c) =>
        (.ok ({ id := batchId ++ "-" ++ toString i, baseImage := baseImg,
                resultImage := resultImg, feedback := none } :: l), c + 1)
      | (.error e, c) => (.error e, c + 1)

/-- Embedding of `App.handleGenerate`: reject client-side when a non-admin
balance cannot cover the scaled cost; otherwise run the batch sequentially;
on failure surface the error leaving history and credits untouched; on full
success debit once and prepend a single batch entry, truncated to
`MAX_HISTORY`. -/
def handleGenerate (isAdmin : Bool) (credits : Int) (history : List HistoryItemM)
    (perOpCost : Nat) (batchId : String) (task : TaskType) (prompt : String)
    (timestamp : Nat) (refImages : List String)
    (gen : Nat → Except Thrown String) (baseImages : List String) : GenOutcome :=
  let totalCost := getCreditCost perOpCost baseImages.length
  if isAdmin = false ∧ credits < (totalCost : Int) then
    { history := history, credits := credits, thrown := none,
      blocked := true, genCalls := 0 }
  else
    match runBatch gen batchId baseImages 0 with
    | (.error e, c) =>
      { history := history, credits := credits, thrown := some e,
        blocked := false, genCalls := c }
    | (.ok results, c) =>
      { history := (({ id := batchId, taskType := task, prompt := prompt,
                       timestamp := timestamp, results := results,
                       referenceImages := refImages } : HistoryItemM) :: history).take MAX_HISTORY,
        credits := if isAdmin then credits else credits - totalCost,
        thrown := none, blocked := false, genCalls := c }

theorem runBatch_ok (gen : Nat → Except Thrown String) (batchId : String) :
    ∀ (l : List String) (start : Nat),
      (∀ j, j < l.length → ∃ r, gen (start + j) = .ok r) →
      ∃ results, runBatch gen batchId l start = (.ok results, l.length) ∧
        results.length = l.length := by
  intro l
  induction l with
  | nil => intro start _; exact ⟨[], rfl, rfl⟩
  | cons img rest ih =>
    intro start hok
    obtain ⟨r, hr⟩ := hok 0 (by simp)
    rw [Nat.add_zero] at hr
    obtain ⟨results, hres, hlen⟩ := ih (start + 1) (fun j hj => by
      obtain ⟨r', hr'⟩ := hok (j + 1) (by simpa using Nat.succ_lt_succ hj)
      exact ⟨r', by rw [← hr']; ring_nf⟩)
    refine ⟨{ id := batchId ++ "-" ++ toString start, baseImage := img,
              resultImage := r, feedback := none } :: results, ?_, ?_⟩
    · simp only [runBatch, hr, hres, List.length_cons]
    · simp [hlen]

theorem runBatch_error (gen : Nat → Except Thrown String) (batchId : String) :
    ∀ (l : List String) (start k : Nat) (e : Thrown),
      k < l.length →
      (∀ j, j < k → ∃ r, gen (start + j) = .ok r) →
      gen (start + k) = .error e →
      runBatch gen batchId l start = (.error e, k + 1) := by
  intro l
  induction l with
  | nil => intro start k e hk _ _; simp at hk
  | cons img rest ih =>
    intro start k e hk hok herr
    cases k with
    | zero =>
      rw [Nat.add_zero] at herr
      simp only [runBatch, herr]
    | succ m =>
      obtain ⟨r, hr⟩ := hok 0 (Nat.succ_pos m)
      rw [Nat.add_zero] at hr
      have hrec := ih (start + 1) m e (by simpa using hk)
        (fun j hj => by
          obtain ⟨r', hr'⟩ := hok (j + 1) (Nat.succ_lt_succ hj)
          exact ⟨r', by rw [← hr']; ring_nf⟩)
        (by rw [← herr]; ring_nf)
      simp only [runBatch, hr, hrec]

/-- C4: batch generation is all-or-nothing.  With sufficient credits, if
the call for image `k` fails, no further image is processed (exactly `k+1`
calls occur), the partial results are discarded, the history list is
unchanged and no credits are debited; when all `N` images succeed, credits
are debited once, scaled by `N`, and a single history batch holding `N`
results is prepended (bounded by `MAX_HISTORY`). -/
theorem handleGenerate_batch_atomic
    (credits : Int) (history : List HistoryItemM) (perOpCost : Nat)
    (batchId : String) (task : TaskType) (prompt : String) (timestamp : Nat)
    (refImages : List String) (gen : Nat → Except Thrown String)
    (baseImages : List String)
    (hcred : ((getCreditCost perOpCost baseImages.length : Nat) : Int) ≤ credits) :
    (∀ k e, k < baseImages.length →
        (∀ j, j < k → ∃ r, gen j = .ok r) →
        gen k = .error e →
        handleGenerate false credits history perOpCost batchId task prompt
            timestamp refImages gen baseImages
          = { history := history, credits := credits, thrown := some e,
              blocked := false, genCalls := k + 1 }) ∧
    ((∀ j, j < baseImages.length → ∃ r, gen j = .ok r) →
      ∃ results, results.length = baseImages.length ∧
        handleGenerate false credits history perOpCost batchId task prompt
            timestamp refImages gen baseImages
          = { history := (({ id := batchId, taskType := task, prompt := prompt,
                             timestamp := timestamp, results := results,
                             referenceImages := refImages } : HistoryItemM)
                :: history).take MAX_HISTORY,
              credits := credits - (getCreditCost perOpCost baseImages.length : Nat),
              thrown := none, blocked := false,
              genCalls := baseImages.length }) := by
  have hguard : ¬(false = false ∧
      credits < ((getCreditCost perOpCost baseImages.length : Nat) : Int)) := by
    rintro ⟨-, hlt⟩
    omega
  constructor
  · intro k e hk hok herr
    have hrb := runBatch_error gen batchId baseImages 0 k e hk
      (fun j hj => by obtain ⟨r, h⟩ := hok j hj; exact ⟨r, by rwa [Nat.zero_add]⟩)
      (by rwa [Nat.zero_add])
    simp only [handleGenerate, if_neg hguard, hrb]
    rw [if_neg (fun hc => hguard ⟨rfl, hc.2⟩)]
  · intro hok
    obtain ⟨results, hrb, hlen⟩ := runBatch_ok gen batchId baseImages 0
      (fun j hj => by obtain ⟨r, h⟩ := hok j hj; exact ⟨r, by rwa [Nat.zero_add]⟩)
    refine ⟨results, hlen, ?_⟩
    simp only [handleGenerate, if_neg hguard, hrb, Bool.false_eq_true, if_false]
    rw [if_neg (fun hc => hguard ⟨rfl, hc.2⟩)]

theorem handleGenerate_batch_atomic_witness :
    handleGenerate false 40 [] 4 "b1" TaskType.perspective "p" 0 []
        (fun i => if i = 0 then Except.ok "r0"
          else Except.error (Thrown.obj { message := some "boom" }))
        ["a", "b", "c"]
      = { history := [], credits := 40,
          thrown := some (Thrown.obj { message := some "boom" }),
          blocked := false, genCalls := 2 } :=
  (handleGenerate_batch_atomic 40 [] 4 "b1" TaskType.perspective "p" 0 []
      (fun i => if i = 0 then Except.ok "r0"
        else Except.error (Thrown.obj { message := some "boom" }))
      ["a", "b", "c"] (by decide)).1
    1 (Thrown.obj { message := some "boom" }) (by decide)
    (fun j hj => ⟨"r0", by
      have hj0 : j = 0 := by omega
      subst hj0
      rfl⟩)
    rfl
